import Mathlib

/-!
Shallow embedding of `src/packages/loopring_v3.js/src/types.ts`
(the exchange state model and storage-slot addressing scheme of the
Loopring v3 protocol library), together with theorems settling the
specification claims about it.

Modelling conventions:
* TypeScript `BN` (arbitrary-precision integer) is modelled as `Int`.
* TypeScript `number` fields that hold ids, nonces, counters and flags
  are modelled as `Nat` (they are only ever assigned non-negative
  integer values in this core).
* TypeScript sparse objects `{ [key: number]: T }` / `{ [key: string]: T }`
  are modelled as total functions into `Option`.
* Mutating methods become state-passing functions: a method that mutates
  `this` and returns a value becomes a function returning a pair of the
  value and the updated object.
-/

namespace Constants

/-- Modelled from the spec: `constants.ts` is not part of the sources;
§6 of the spec calls `STORAGE_DEPTH` "the storage sub-tree depth" fixing
the modulo addressing range, and the §8 scenario fixes it to 14
(addresses range over 0..16383). -/
def BINARY_TREE_DEPTH_STORAGE : Nat := 14

/-- Modelled from the spec: `constants.ts` is not part of the sources;
§6 of the spec describes a "well-known zero-address sentinel" denoting an
unregistered/unset owner or token address. -/
def zeroAddress : String := "0x0000000000000000000000000000000000000000"

end Constants

/-- Embeds `class StorageLeaf` (types.ts lines 378-396): a single
replay-protection slot. -/
structure StorageLeaf where
  data : Int
  storageID : Nat
  gasFee : Nat
  cancelled : Nat
  tokenSID : Nat
  tokenBID : Nat
  forward : Nat
  deriving Repr, DecidableEq

/-- Embeds the `StorageLeaf` constructor (types.ts lines 387-395). -/
def StorageLeaf.new : StorageLeaf :=
  { data := 0
    storageID := 0
    gasFee := 0
    cancelled := 0
    tokenSID := 0
    tokenBID := 0
    forward := 1 }

/-- Embeds `class BalanceLeaf` (types.ts lines 398-411): a single token
balance. -/
structure BalanceLeaf where
  balance : Int
  deriving Repr, DecidableEq

/-- Embeds the `BalanceLeaf` constructor (types.ts lines 401-403). -/
def BalanceLeaf.new : BalanceLeaf :=
  { balance := 0 }

/-- Embeds `BalanceLeaf.init` (types.ts lines 405-410): copies the given
balance (a `BN` round-trip through its decimal string, i.e. the identity
on the integer value). -/
def BalanceLeaf.init (_self : BalanceLeaf) (balance : Int) : BalanceLeaf :=
  { balance := balance }

/-- Embeds `class AccountLeaf` (types.ts lines 413-488): one account of
the exchange. The derived Merkle-tree caches (`balancesMerkleTree`,
`storageTree`) belong to the external Merkle collaborator and carry no
authoritative state, so they are not part of the embedding. -/
structure AccountLeaf where
  exchange : String
  accountId : Nat
  owner : String
  publicKeyX : String
  publicKeyY : String
  appKeyPublicKeyX : String
  appKeyPublicKeyY : String
  disableAppKeySpotTrade : Nat
  disableAppKeyWithdraw : Nat
  disableAppKeyTransferToOther : Nat
  nonce : Nat
  balances : Nat → Option BalanceLeaf
  storage : Nat → Option StorageLeaf

/-- Embeds the `AccountLeaf` constructor (types.ts lines 436-450). -/
def AccountLeaf.new (accountId : Nat) : AccountLeaf :=
  { exchange := Constants.zeroAddress
    accountId := accountId
    owner := Constants.zeroAddress
    publicKeyX := "0"
    publicKeyY := "0"
    appKeyPublicKeyX := "0"
    appKeyPublicKeyY := "0"
    disableAppKeySpotTrade := 0
    disableAppKeyWithdraw := 0
    disableAppKeyTransferToOther := 0
    nonce := 0
    balances := fun _ => none
    storage := fun _ => none }

/-- Embeds `AccountLeaf.init` (types.ts lines 452-472). The source
resets `exchange` and `accountId`, overwrites the identity/key/nonce
fields and replaces the two maps wholesale; the three
`disableAppKey...` flags are not assigned by `init` and keep their
current values. The optional map parameters default to `{}` at call
sites; here they are explicit. -/
def AccountLeaf.init (self : AccountLeaf) (owner publicKeyX publicKeyY : String)
    (appKeyPublicKeyX appKeyPublicKeyY : String) (nonce : Nat)
    (balances : Nat → Option BalanceLeaf) (storage : Nat → Option StorageLeaf) :
    AccountLeaf :=
  { self with
    exchange := Constants.zeroAddress
    accountId := 0
    owner := owner
    publicKeyX := publicKeyX
    publicKeyY := publicKeyY
    appKeyPublicKeyX := appKeyPublicKeyX
    appKeyPublicKeyY := appKeyPublicKeyY
    nonce := nonce
    balances := balances
    storage := storage }

/-- Embeds `AccountLeaf.getBalance` (types.ts lines 474-479): returns
the leaf stored at `tokenID`, materializing a fresh zero leaf there
first when the key is unset. Returns the leaf together with the
(possibly updated) account. -/
def AccountLeaf.getBalance (self : AccountLeaf) (tokenID : Nat) :
    BalanceLeaf × AccountLeaf :=
  match self.balances tokenID with
  | some leaf => (leaf, self)
  | none =>
    let leaf := BalanceLeaf.new
    (leaf, { self with
             balances := fun k => if k = tokenID then some leaf else self.balances k })

/-- The storage address computed by `AccountLeaf.getStorage`
(types.ts line 482): `storageID % 2 ** Constants.BINARY_TREE_DEPTH_STORAGE`. -/
def storageAddress (storageID : Nat) : Nat :=
  storageID % 2 ^ Constants.BINARY_TREE_DEPTH_STORAGE

/-- Embeds `AccountLeaf.getStorage` (types.ts lines 481-487): computes
the depth-bounded address of `storageID`, returns the leaf stored at
that address, materializing a fresh zero leaf there first when the
address is unset. Returns the leaf together with the (possibly updated)
account. -/
def AccountLeaf.getStorage (self : AccountLeaf) (storageID : Nat) :
    StorageLeaf × AccountLeaf :=
  let address := storageAddress storageID
  match self.storage address with
  | some leaf => (leaf, self)
  | none =>
    let leaf := StorageLeaf.new
    (leaf, { self with
             storage := fun k => if k = address then some leaf else self.storage k })

/-- Embeds `interface Deposit` (types.ts lines 101-123); the optional
`blockIdx`/`requestIdx` become `Option Nat`. -/
structure Deposit where
  exchange : String
  blockIdx : Option Nat
  requestIdx : Option Nat
  timestamp : Nat
  owner : String
  token : Nat
  amount : Int
  fee : Int
  transactionHash : String

/-- Embeds `interface OnchainWithdrawal` (types.ts lines 128-152). -/
structure OnchainWithdrawal where
  exchange : String
  blockIdx : Option Nat
  requestIdx : Option Nat
  withdrawalIdx : Nat
  timestamp : Nat
  accountID : Nat
  tokenID : Nat
  amountRequested : Int
  amountWithdrawn : Option Int
  transactionHash : String

/-- Embeds `interface SpotTrade` (types.ts lines 157-194). -/
structure SpotTrade where
  exchange : String
  blockIdx : Nat
  requestIdx : Nat
  accountIdA : Nat
  orderIdA : Nat
  fillAmountBorSA : Bool
  tokenA : Nat
  fillSA : Int
  feeA : Int
  protocolFeeA : Int
  accountIdB : Nat
  orderIdB : Nat
  fillAmountBorSB : Bool
  tokenB : Nat
  fillSB : Int
  feeB : Int
  protocolFeeB : Int

/-- Embeds `interface OffchainWithdrawal` (types.ts lines 199-217). -/
structure OffchainWithdrawal where
  exchange : String
  blockIdx : Nat
  requestIdx : Nat
  accountID : Nat
  tokenID : Nat
  amountWithdrawn : Int
  feeTokenID : Nat
  fee : Int

/-- Embeds `interface OrderCancellation` (types.ts lines 222-240). -/
structure OrderCancellation where
  exchange : String
  blockIdx : Nat
  requestIdx : Nat
  accountID : Nat
  orderTokenID : Nat
  orderID : Nat
  feeTokenID : Nat
  fee : Int

/-- Embeds `interface InternalTransfer` (types.ts lines 245-267). -/
structure InternalTransfer where
  exchange : String
  blockIdx : Nat
  requestIdx : Nat
  fromAccountID : Nat
  toAccountID : Nat
  tokenID : Nat
  amount : Int
  feeTokenID : Nat
  fee : Int
  type : Nat

/-- Element type of `ExchangeState.processedRequests`. The source
declares it as `any[]` (types.ts line 523); per §2 and §9 of the spec
the values appended there are the result records, so the embedding uses
the tagged union over those record kinds. -/
inductive ProcessedRequest where
  | deposit (d : Deposit)
  | onchainWithdrawal (w : OnchainWithdrawal)
  | spotTrade (t : SpotTrade)
  | offchainWithdrawal (w : OffchainWithdrawal)
  | orderCancellation (c : OrderCancellation)
  | internalTransfer (t : InternalTransfer)

/-- Embeds `class ExchangeState` (types.ts lines 490-524): the aggregate
root. The sparse objects `accountIdToOwner` / `ownerToAccountId` are
modelled as total functions into `Option`. -/
structure ExchangeState where
  exchange : String
  accounts : List AccountLeaf
  accountIdToOwner : Nat → Option String
  ownerToAccountId : String → Option Nat
  deposits : List Deposit
  onchainWithdrawals : List OnchainWithdrawal
  processedRequests : List ProcessedRequest

/-- Embeds the while loop of `ExchangeState.getAccount` (types.ts
lines 511-513): while `accountID >= accounts.length`, push a freshly
constructed `AccountLeaf` whose `accountId` is the current length. -/
def ExchangeState.extendLoop (self : ExchangeState) (accountID : Nat) :
    ExchangeState :=
  if accountID ≥ self.accounts.length then
    ExchangeState.extendLoop
      { self with accounts := self.accounts ++ [AccountLeaf.new self.accounts.length] }
      accountID
  else
    self
termination_by accountID + 1 - self.accounts.length
decreasing_by
  simp only [List.length_append, List.length_singleton]
  omega

/-- Embeds `ExchangeState.getAccount` (types.ts lines 510-515): runs the
extension loop, then returns `accounts[accountID]` (always in range
after the loop; the `getD` default is never hit) together with the
updated state. -/
def ExchangeState.getAccount (self : ExchangeState) (accountID : Nat) :
    AccountLeaf × ExchangeState :=
  let s := self.extendLoop accountID
  (s.accounts.getD accountID (AccountLeaf.new 0), s)

/-- Embeds the `ExchangeState` constructor (types.ts lines 494-508):
stores the exchange address and the given account list (default `[]` at
call sites; explicit here), initializes the owner indices and the three
logs to empty, then creates the protocol-fee pool account by calling
`getAccount(0)` for its side effect. -/
def ExchangeState.new (exchange : String) (accounts : List AccountLeaf) :
    ExchangeState :=
  let s : ExchangeState :=
    { exchange := exchange
      accounts := accounts
      accountIdToOwner := fun _ => none
      ownerToAccountId := fun _ => none
      deposits := []
      onchainWithdrawals := []
      processedRequests := [] }
  (s.getAccount 0).2

/-! Helper lemmas characterizing the while loop of `getAccount`. -/

theorem ExchangeState.extendLoop_spec (s : ExchangeState) (n : Nat) :
    s.extendLoop n =
      { s with accounts := s.accounts ++ (List.range' s.accounts.length (n + 1 - s.accounts.length)).map AccountLeaf.new } := by
  induction s, n using ExchangeState.extendLoop.induct with
  | case1 s n hge ih =>
    rw [ExchangeState.extendLoop, if_pos hge]
    rw [ih]
    have hlen : (s.accounts ++ [AccountLeaf.new s.accounts.length]).length
        = s.accounts.length + 1 := by simp
    simp only [hlen]
    have hrange : List.range' s.accounts.length (n + 1 - s.accounts.length)
        = s.accounts.length :: List.range' (s.accounts.length + 1) (n + 1 - (s.accounts.length + 1)) := by
      have h1 : n + 1 - s.accounts.length = (n + 1 - (s.accounts.length + 1)) + 1 := by omega
      rw [h1, List.range'_succ]
    rw [hrange]
    simp [List.append_assoc]
  | case2 s n hlt =>
    rw [ExchangeState.extendLoop, if_neg hlt]
    have h0 : n + 1 - s.accounts.length = 0 := by omega
    simp [h0]

theorem ExchangeState.extendLoop_of_lt (s : ExchangeState) (n : Nat)
    (h : n < s.accounts.length) : s.extendLoop n = s := by
  rw [ExchangeState.extendLoop, if_neg (by omega)]

theorem ExchangeState.getAccount_snd (s : ExchangeState) (n : Nat) :
    (s.getAccount n).2 =
      { s with accounts := s.accounts ++ (List.range' s.accounts.length (n + 1 - s.accounts.length)).map AccountLeaf.new } := by
  rw [ExchangeState.getAccount, ExchangeState.extendLoop_spec]

theorem ExchangeState.getAccount_fst (s : ExchangeState) (n : Nat) :
    (s.getAccount n).1 =
      (s.accounts ++ (List.range' s.accounts.length (n + 1 - s.accounts.length)).map AccountLeaf.new).getD n (AccountLeaf.new 0) := by
  rw [ExchangeState.getAccount]
  rw [ExchangeState.extendLoop_spec]

theorem ExchangeState.getAccount_length (s : ExchangeState) (n : Nat) :
    ((s.getAccount n).2).accounts.length = max (n + 1) s.accounts.length := by
  rw [ExchangeState.getAccount_snd]
  simp only [List.length_append, List.length_map, List.length_range']
  omega

theorem ExchangeState.new_spec (exchange : String) (accounts : List AccountLeaf) :
    ExchangeState.new exchange accounts =
      { exchange := exchange
        accounts := accounts ++ (List.range' accounts.length (1 - accounts.length)).map AccountLeaf.new
        accountIdToOwner := fun _ => none
        ownerToAccountId := fun _ => none
        deposits := []
        onchainWithdrawals := []
        processedRequests := [] } := by
  rw [ExchangeState.new, ExchangeState.getAccount_snd]

/-! Claim theorems. -/

/-- C9: a freshly constructed (absent/zero-initialized) `StorageLeaf` has
`forward == 1` and all other fields zero: `data == 0`, `storageID == 0`,
`gasFee == 0`, `cancelled == 0`, `tokenSID == 0`, `tokenBID == 0`. -/
theorem storageLeaf_new_zero_except_forward :
    StorageLeaf.new.forward = 1 ∧ StorageLeaf.new.data = 0 ∧
    StorageLeaf.new.storageID = 0 ∧ StorageLeaf.new.gasFee = 0 ∧
    StorageLeaf.new.cancelled = 0 ∧ StorageLeaf.new.tokenSID = 0 ∧
    StorageLeaf.new.tokenBID = 0 := by
  refine ⟨rfl, rfl, rfl, rfl, rfl, rfl, rfl⟩

/-- C3: constructing an `ExchangeState` with an empty account list produces
a state with exactly one account (the fee-pool account at index 0) before
the constructor returns, and every freshly constructed state has
`accounts.length ≥ 1`. -/
theorem exchangeState_new_has_feePool :
    (∀ exchange, (ExchangeState.new exchange []).accounts.length = 1) ∧
    (∀ exchange accounts, 1 ≤ (ExchangeState.new exchange accounts).accounts.length) := by
  constructor
  · intro exchange
    rw [ExchangeState.new_spec]
    simp
  · intro exchange accounts
    rw [ExchangeState.new_spec]
    simp only [List.length_append, List.length_map, List.length_range']
    omega

/-- C10: constructing an `ExchangeState` with a caller-supplied non-empty
accounts list keeps that list exactly as given: the fee-pool call
`getAccount(0)` appends nothing because `accounts.length ≥ 1`, no account
is renumbered, and the constructor performs no check relating
`accounts[i].accountId` to `i`. -/
theorem exchangeState_new_keeps_nonempty_accounts (exchange : String)
    (accounts : List AccountLeaf) (h : accounts ≠ []) :
    (ExchangeState.new exchange accounts).accounts = accounts := by
  rw [ExchangeState.new_spec]
  have hlen : 1 - accounts.length = 0 := by
    have := List.length_pos.mpr h
    omega
  simp [hlen]

/-- Witness for C10, on a one-element list whose account has
`accountId = 7` at index 0: the constructor keeps it unchanged and
unrenumbered. -/
theorem exchangeState_new_keeps_nonempty_accounts_witness :
    (ExchangeState.new "0xEXC" [AccountLeaf.new 7]).accounts = [AccountLeaf.new 7] :=
  exchangeState_new_keeps_nonempty_accounts "0xEXC" [AccountLeaf.new 7] (by simp)

/-- C2 counterexample: the claim that no operation modifies an account's
`accountId` is false: `AccountLeaf.init` called on the account constructed
with `accountId = 5` resets its `accountId` to 0. -/
theorem init_resets_accountId_cex :
    ((AccountLeaf.new 5).init "0xowner" "1" "2" "3" "4" 9
        (fun _ => none) (fun _ => none)).accountId = 0 ∧
    (AccountLeaf.new 5).accountId = 5 ∧ (0 : Nat) ≠ 5 := by
  refine ⟨rfl, rfl, by decide⟩

/-- C2 amended: the `AccountLeaf` constructor sets `accountId` exactly once;
`getBalance` and `getStorage` never modify it; but `AccountLeaf.init`
always resets `accountId` to 0, so calling `init` on an existing account
constructed with a nonzero `accountId` does change it. -/
theorem accountId_lifecycle (accountId : Nat) (a : AccountLeaf)
    (owner publicKeyX publicKeyY appKeyPublicKeyX appKeyPublicKeyY : String)
    (nonce tokenID storageID : Nat)
    (balances : Nat → Option BalanceLeaf) (storage : Nat → Option StorageLeaf) :
    (AccountLeaf.new accountId).accountId = accountId ∧
    ((a.getBalance tokenID).2).accountId = a.accountId ∧
    ((a.getStorage storageID).2).accountId = a.accountId ∧
    (a.init owner publicKeyX publicKeyY appKeyPublicKeyX appKeyPublicKeyY
        nonce balances storage).accountId = 0 := by
  refine ⟨rfl, ?_, ?_, rfl⟩
  · rw [AccountLeaf.getBalance]
    cases a.balances tokenID <;> rfl
  · rw [AccountLeaf.getStorage]
    cases a.storage (storageAddress storageID) <;> rfl

/-- C4: `getBalance(tokenID)` returns the existing `BalanceLeaf` when one
is stored at that key and otherwise creates, stores and returns a zero
leaf; it never removes or modifies any existing balance entry and never
fails; on an account where `tokenID` is unset, the returned leaf has
balance 0. -/
theorem getBalance_spec (a : AccountLeaf) (tokenID : Nat) :
    (a.getBalance tokenID).1 = (a.balances tokenID).getD BalanceLeaf.new ∧
    ((a.getBalance tokenID).2).balances tokenID = some ((a.getBalance tokenID).1) ∧
    (∀ k, k ≠ tokenID → ((a.getBalance tokenID).2).balances k = a.balances k) ∧
    (∀ k leaf, a.balances k = some leaf →
      ((a.getBalance tokenID).2).balances k = some leaf) ∧
    (a.balances tokenID = none → (a.getBalance tokenID).1.balance = 0) := by
  rw [AccountLeaf.getBalance]
  cases hb : a.balances tokenID with
  | some leaf =>
    refine ⟨rfl, hb, fun k _ => rfl, fun k l hl => hl, fun hnone => ?_⟩
    simp [hb] at hnone
  | none =>
    refine ⟨rfl, by simp, fun k hk => by simp [hk], fun k l hl => ?_, fun _ => rfl⟩
    have hk : k ≠ tokenID := by
      intro he
      rw [he, hb] at hl
      exact Option.noConfusion hl
    simp [hk, hl]

/-- Witness for C4 at a fresh account and token 3: the unset key yields a
zero balance, it is stored afterwards, and an existing entry (at key 3 of
the updated account) is returned unchanged by a second call. -/
theorem getBalance_spec_witness :
    ((AccountLeaf.new 0).getBalance 3).1.balance = 0 ∧
    (((AccountLeaf.new 0).getBalance 3).2).balances 3 =
      some (((AccountLeaf.new 0).getBalance 3).1) ∧
    (((AccountLeaf.new 0).getBalance 3).2).balances 7 = (AccountLeaf.new 0).balances 7 := by
  have h := getBalance_spec (AccountLeaf.new 0) 3
  exact ⟨h.2.2.2.2 rfl, h.2.1, h.2.2.1 7 (by decide)⟩

/-- C5: `getStorage(storageID)` computes
`address = storageID mod 2^STORAGE_DEPTH` and returns the existing
`StorageLeaf` at that address, or, when the address is unset, creates and
stores a zero-initialized leaf there (`storageID == 0`, `data == 0`) and
returns it; the result depends on `storageID` only through its address
(addressing only — the stored `storageID` field is never compared against
the requested one), and entries at other addresses are untouched. -/
theorem getStorage_spec (a : AccountLeaf) (storageID : Nat) :
    storageAddress storageID = storageID % 2 ^ Constants.BINARY_TREE_DEPTH_STORAGE ∧
    (a.getStorage storageID).1 =
      (a.storage (storageAddress storageID)).getD StorageLeaf.new ∧
    ((a.getStorage storageID).2).storage (storageAddress storageID) =
      some ((a.getStorage storageID).1) ∧
    (∀ k, k ≠ storageAddress storageID →
      ((a.getStorage storageID).2).storage k = a.storage k) ∧
    (a.storage (storageAddress storageID) = none →
      (a.getStorage storageID).1.storageID = 0 ∧ (a.getStorage storageID).1.data = 0) ∧
    (∀ sid, storageAddress sid = storageAddress storageID →
      a.getStorage sid = a.getStorage storageID) := by
  refine ⟨rfl, ?_, ?_, ?_, ?_, ?_⟩ <;> rw [AccountLeaf.getStorage]
  · cases a.storage (storageAddress storageID) <;> rfl
  · cases hs : a.storage (storageAddress storageID) with
    | some leaf => simp [hs]
    | none => simp [hs]
  · intro k hk
    cases hs : a.storage (storageAddress storageID) with
    | some leaf => rfl
    | none => simp [hk]
  · intro hnone
    rw [hnone]
    exact ⟨rfl, rfl⟩
  · intro sid hsid
    rw [AccountLeaf.getStorage, hsid]

/-- Witness for C5 at a fresh account and storageID 17 (address 17): the
unset address yields the zero leaf with `storageID = 0` and `data = 0`,
stored at address 17 afterwards, and the address computation matches the
modulus. -/
theorem getStorage_spec_witness :
    storageAddress 17 = 17 % 2 ^ Constants.BINARY_TREE_DEPTH_STORAGE ∧
    ((AccountLeaf.new 0).getStorage 17).1.storageID = 0 ∧
    ((AccountLeaf.new 0).getStorage 17).1.data = 0 ∧
    (((AccountLeaf.new 0).getStorage 17).2).storage (storageAddress 17) =
      some (((AccountLeaf.new 0).getStorage 17).1) ∧
    (((AccountLeaf.new 0).getStorage 17).2).storage 99 = (AccountLeaf.new 0).storage 99 := by
  have h := getStorage_spec (AccountLeaf.new 0) 17
  refine ⟨h.1, (h.2.2.2.2.1 rfl).1, (h.2.2.2.2.1 rfl).2, h.2.2.1, h.2.2.2.1 99 ?_⟩
  decide

/-- C6: cyclic addressing law: whenever two storageIDs differ by an
integer multiple of `2^STORAGE_DEPTH` (so `n = s + k·2^STORAGE_DEPTH`
for an integer `k`), they map to the same storage address, and
`getStorage` on the same account returns the same leaf from the same
physical slot for both. -/
theorem storageAddress_cyclic (a : AccountLeaf) (s n : Nat) (k : Int)
    (h : (n : Int) = (s : Int) + k * 2 ^ Constants.BINARY_TREE_DEPTH_STORAGE) :
    storageAddress n = storageAddress s ∧
    a.getStorage n = a.getStorage s := by
  have hM : (2 : Int) ^ Constants.BINARY_TREE_DEPTH_STORAGE = 16384 := by
    norm_num [Constants.BINARY_TREE_DEPTH_STORAGE]
  rw [hM] at h
  have haddr : storageAddress n = storageAddress s := by
    have h2 : n % 16384 = s % 16384 := by omega
    simpa [storageAddress, Constants.BINARY_TREE_DEPTH_STORAGE] using h2
  exact ⟨haddr, by rw [AccountLeaf.getStorage, AccountLeaf.getStorage, haddr]⟩

/-- Witness for C6, instantiating the §8 scenario: `17 + 16384 = 16401`
differs from 17 by `(-1)·2^14`, so both address slot 17 and `getStorage`
returns the same leaf for both on a fresh account. -/
theorem storageAddress_cyclic_witness :
    storageAddress 17 = storageAddress 16401 ∧
    (AccountLeaf.new 0).getStorage 17 = (AccountLeaf.new 0).getStorage 16401 :=
  storageAddress_cyclic (AccountLeaf.new 0) 16401 17 (-1)
    (by norm_num [Constants.BINARY_TREE_DEPTH_STORAGE])

/-- C1: for every `accountId ≥ 0`, after `getAccount(accountId)` returns,
`accounts.length ≥ accountId + 1`; the returned account is the one stored
at index `accountId`; and calling `getAccount(accountId)` a second time
returns the same account and leaves the state (in particular
`accounts.length`) unchanged — `getAccount` is idempotent. -/
theorem getAccount_idempotent (s : ExchangeState) (accountID : Nat) :
    accountID + 1 ≤ ((s.getAccount accountID).2).accounts.length ∧
    (s.getAccount accountID).1 =
      ((s.getAccount accountID).2).accounts.getD accountID (AccountLeaf.new 0) ∧
    ((s.getAccount accountID).2).getAccount accountID =
      ((s.getAccount accountID).1, (s.getAccount accountID).2) := by
  have hlen := ExchangeState.getAccount_length s accountID
  have hlt : accountID < ((s.getAccount accountID).2).accounts.length := by omega
  refine ⟨by omega, rfl, ?_⟩
  rw [ExchangeState.getAccount, ExchangeState.extendLoop_of_lt _ _ hlt]
  rfl

/-- C7: when `getAccount(accountId)` extends the accounts array, every
appended account is a freshly constructed zero-valued `AccountLeaf` whose
`accountId` equals its array index, all previously existing accounts stay
unchanged in their original positions, and no other field of
`ExchangeState` (the owner maps, deposits, onchainWithdrawals,
processedRequests, exchange) is modified. -/
theorem getAccount_frame (s : ExchangeState) (accountID : Nat) :
    ((s.getAccount accountID).2).exchange = s.exchange ∧
    ((s.getAccount accountID).2).accountIdToOwner = s.accountIdToOwner ∧
    ((s.getAccount accountID).2).ownerToAccountId = s.ownerToAccountId ∧
    ((s.getAccount accountID).2).deposits = s.deposits ∧
    ((s.getAccount accountID).2).onchainWithdrawals = s.onchainWithdrawals ∧
    ((s.getAccount accountID).2).processedRequests = s.processedRequests ∧
    ((s.getAccount accountID).2).accounts.length = max (accountID + 1) s.accounts.length ∧
    (∀ i, i < s.accounts.length →
      ((s.getAccount accountID).2).accounts[i]? = s.accounts[i]?) ∧
    (∀ i, s.accounts.length ≤ i → i < ((s.getAccount accountID).2).accounts.length →
      ((s.getAccount accountID).2).accounts[i]? = some (AccountLeaf.new i)) := by
  have hsnd := ExchangeState.getAccount_snd s accountID
  refine ⟨by rw [hsnd], by rw [hsnd], by rw [hsnd], by rw [hsnd], by rw [hsnd],
    by rw [hsnd], ExchangeState.getAccount_length s accountID, ?_, ?_⟩
  · intro i hi
    rw [hsnd]
    exact List.getElem?_append_left hi
  · intro i hge hi
    rw [hsnd] at hi ⊢
    rw [List.getElem?_append_right hge, List.getElem?_map]
    simp only [List.length_append, List.length_map, List.length_range'] at hi
    have hm : i - s.accounts.length < accountID + 1 - s.accounts.length := by omega
    rw [List.getElem?_range' _ _ hm]
    simp only [Option.map_some']
    have hidx : s.accounts.length + 1 * (i - s.accounts.length) = i := by omega
    rw [hidx]

/-- Witness for C7, on the §8 scenario: the empty-list construction has
one account; `getAccount(5)` yields six accounts, keeps the fee-pool
account at index 0 unchanged, and fills index 3 (like 1..4) with the
fresh zero-valued account whose `accountId` is 3. -/
theorem getAccount_frame_witness :
    ((ExchangeState.new "0xEXC" []).getAccount 5).2.accounts.length =
      max (5 + 1) (ExchangeState.new "0xEXC" []).accounts.length ∧
    ((ExchangeState.new "0xEXC" []).getAccount 5).2.accounts[0]? =
      (ExchangeState.new "0xEXC" []).accounts[0]? ∧
    ((ExchangeState.new "0xEXC" []).getAccount 5).2.accounts[3]? =
      some (AccountLeaf.new 3) := by
  have h := getAccount_frame (ExchangeState.new "0xEXC" []) 5
  have hone : (ExchangeState.new "0xEXC" []).accounts.length = 1 :=
    exchangeState_new_has_feePool.1 "0xEXC"
  refine ⟨h.2.2.2.2.2.2.1, h.2.2.2.2.2.2.2.1 0 (by omega), h.2.2.2.2.2.2.2.2 3 (by omega) ?_⟩
  rw [h.2.2.2.2.2.2.1]
  omega

/-- States reachable from construction via the operations of this core:
the `ExchangeState` constructor and `getAccount`. -/
inductive ExchangeState.Reached : ExchangeState → Prop where
  | construct (exchange : String) (accounts : List AccountLeaf) :
      ExchangeState.Reached (ExchangeState.new exchange accounts)
  | getAccountStep (s : ExchangeState) (accountID : Nat) :
      ExchangeState.Reached s → ExchangeState.Reached ((s.getAccount accountID).2)

/-- C8: in every state reachable from construction via the operations of
this core, `accountIdToOwner` and `ownerToAccountId` form an exact
bijection over registered accounts: every entry of `accountIdToOwner` is
inverted by `ownerToAccountId`. The operations of this core never touch
the two maps (both stay empty, so no account is registered by this core,
and `getAccount` preserves both maps in any state), and every account the
core creates has the zero (unregistered) owner. -/
theorem owner_maps_bijection (s : ExchangeState) (h : s.Reached) :
    (∀ id owner, s.accountIdToOwner id = some owner →
      s.ownerToAccountId owner = some id) ∧
    (∀ id, s.accountIdToOwner id = none) ∧
    (∀ owner, s.ownerToAccountId owner = none) ∧
    (∀ accountID, ((s.getAccount accountID).2).accountIdToOwner = s.accountIdToOwner ∧
      ((s.getAccount accountID).2).ownerToAccountId = s.ownerToAccountId) ∧
    (∀ accountId, (AccountLeaf.new accountId).owner = Constants.zeroAddress) := by
  have hpres : ∀ (t : ExchangeState) (accountID : Nat),
      ((t.getAccount accountID).2).accountIdToOwner = t.accountIdToOwner ∧
      ((t.getAccount accountID).2).ownerToAccountId = t.ownerToAccountId := by
    intro t accountID
    rw [ExchangeState.getAccount_snd]
    exact ⟨rfl, rfl⟩
  induction h with
  | construct exchange accounts =>
    rw [ExchangeState.new_spec]
    exact ⟨fun id owner hid => Option.noConfusion hid, fun _ => rfl, fun _ => rfl,
      fun accountID => hpres _ accountID, fun _ => rfl⟩
  | getAccountStep t accountID _ ih =>
    rw [(hpres t accountID).1, (hpres t accountID).2]
    exact ⟨ih.1, ih.2.1, ih.2.2.1,
      fun aid => ⟨((hpres _ aid).1).trans (hpres t accountID).1,
        ((hpres _ aid).2).trans (hpres t accountID).2⟩, ih.2.2.2.2⟩

/-- Witness for C8 at the freshly constructed empty state and one
`getAccount` step from it: both are reachable, so the bijection and
map-emptiness hold there. -/
theorem owner_maps_bijection_witness :
    (∀ id, (ExchangeState.new "0xEXC" []).accountIdToOwner id = none) ∧
    (∀ owner, ((((ExchangeState.new "0xEXC" []).getAccount 5).2)).ownerToAccountId owner = none) := by
  refine ⟨(owner_maps_bijection _ (ExchangeState.Reached.construct "0xEXC" [])).2.1, ?_⟩
  exact (owner_maps_bijection _ (ExchangeState.Reached.getAccountStep _ 5
    (ExchangeState.Reached.construct "0xEXC" []))).2.2.1
